import Mathlib

/-!
Verification of the pose-comparison core of the jiveMediaPipe repository.

The JavaScript sources are shallowly embedded in Lean 4:
floating-point coordinates, timestamps and scores become rational numbers
(exact arithmetic over the reachable values), JS arrays become lists,
nullable values become Option, and the stateful React components become
explicit state-transition functions folded over event sequences.
Square roots (Math.sqrt) are modelled by storing the radicand exactly in
the data and exposing the distance itself as Real.sqrt of that radicand.
-/

/-- A pose landmark as produced by the detector and consumed everywhere in
the frontend: a kp entry is the array [x, y, z, visibility]. -/
structure Landmark where
  x : ℚ
  y : ℚ
  z : ℚ
  visibility : ℚ
deriving DecidableEq

/-- A pose snapshot: the kp array of landmarks (LiveDance.js builds
poseData.kp from the detector output). -/
structure Pose where
  kp : List Landmark
deriving DecidableEq

/-- A frame record of a persisted pose timeline, as read by VideoPlayer.js:
a timestamp t in seconds, the detection flag ok, and the landmark array. -/
structure Frame where
  t : ℚ
  ok : Bool
  kp : List Landmark
deriving DecidableEq

/-! ### findPoseForTime (src/frontend/src/components/VideoPlayer.js, lines 62-78) -/

/-- One step of the loop body of findPoseForTime: the accumulator holds the
closest record so far together with minDiff, and is replaced exactly when
the new record's time difference is strictly smaller. -/
def closer (time : ℚ) (acc : Frame × ℚ) (pose : Frame) : Frame × ℚ :=
  if |pose.t - time| < acc.2 then (pose, |pose.t - time|) else acc

/-- findPoseForTime from VideoPlayer.js: returns null (none) when poseData
is absent or empty; otherwise starts from poseData[0] and scans the whole
array keeping the record with the strictly smallest |t - time|. -/
def findPoseForTime (poseData : Option (List Frame)) (time : ℚ) : Option Frame :=
  match poseData with
  | none => none
  | some [] => none
  | some (p0 :: rest) =>
      some ((p0 :: rest).foldl (closer time) (p0, |p0.t - time|)).1

/-! ### The distance-to-accuracy map (PoseDiffVisualizer, calculateJointAccuracyScores) -/

/-- The map from a joint distance to an accuracy value, from the line
accuracy = Math.max(0, 100 - (distance * 1000)) of
calculateJointAccuracyScores. -/
def accuracyOfDistance (d : ℝ) : ℝ := max 0 (100 - d * 1000)

/-! ### Theorems for claims C1 and C2 -/

lemma closer_foldl (time : ℚ) :
    ∀ (l : List Frame) (r : Frame),
      ∃ res, l.foldl (closer time) (r, |r.t - time|) = (res, |res.t - time|) ∧
        ((res = r ∧ ∀ p ∈ l, |r.t - time| ≤ |p.t - time|) ∨
         (∃ l₁ l₂, l = l₁ ++ res :: l₂ ∧ |res.t - time| < |r.t - time| ∧
           (∀ p ∈ l, |res.t - time| ≤ |p.t - time|) ∧
           ∀ p ∈ l₁, |res.t - time| < |p.t - time|)) := by
  intro l
  induction l with
  | nil =>
      intro r
      exact ⟨r, rfl, Or.inl ⟨rfl, by simp⟩⟩
  | cons p l' ih =>
      intro r
      by_cases h : |p.t - time| < |r.t - time|
      · have hstep : (p :: l').foldl (closer time) (r, |r.t - time|) =
            l'.foldl (closer time) (p, |p.t - time|) := by
          simp [closer, h]
        obtain ⟨res, hres, hcase⟩ := ih p
        refine ⟨res, hstep.trans hres, Or.inr ?_⟩
        rcases hcase with ⟨hrp, hmin⟩ | ⟨l₁, l₂, hsplit, hlt, hmin, hstrict⟩
        · subst hrp
          refine ⟨[], l', by simp, h, ?_, by simp⟩
          intro q hq
          rcases List.mem_cons.mp hq with hq | hq
          · simp [hq]
          · exact hmin q hq
        · refine ⟨p :: l₁, l₂, by simp [hsplit], lt_trans hlt h, ?_, ?_⟩
          · intro q hq
            rcases List.mem_cons.mp hq with hq | hq
            · exact hq ▸ le_of_lt hlt
            · exact hmin q hq
          · intro q hq
            rcases List.mem_cons.mp hq with hq | hq
            · exact hq ▸ hlt
            · exact hstrict q hq
      · have hstep : (p :: l').foldl (closer time) (r, |r.t - time|) =
            l'.foldl (closer time) (r, |r.t - time|) := by
          simp [closer, h]
        obtain ⟨res, hres, hcase⟩ := ih r
        refine ⟨res, hstep.trans hres, ?_⟩
        rcases hcase with ⟨hrr, hmin⟩ | ⟨l₁, l₂, hsplit, hlt, hmin, hstrict⟩
        · refine Or.inl ⟨hrr, ?_⟩
          intro q hq
          rcases List.mem_cons.mp hq with hq | hq
          · exact hq ▸ not_lt.mp h
          · exact hmin q hq
        · refine Or.inr ⟨p :: l₁, l₂, by simp [hsplit], hlt, ?_, ?_⟩
          · intro q hq
            rcases List.mem_cons.mp hq with hq | hq
            · exact hq ▸ le_of_lt (lt_of_lt_of_le hlt (not_lt.mp h))
            · exact hmin q hq
          · intro q hq
            rcases List.mem_cons.mp hq with hq | hq
            · exact hq ▸ lt_of_lt_of_le hlt (not_lt.mp h)
            · exact hstrict q hq

/-- C1: findPoseForTime returns none exactly when the timeline is absent or
empty, and any record it returns is one of the timeline's records whose
|t - query| is least, the earliest such record when several are tied (every
record strictly before it in the list has strictly larger |t - query|). -/
theorem findPoseForTime_spec (poseData : Option (List Frame)) (time : ℚ) :
    (findPoseForTime poseData time = none ↔ poseData = none ∨ poseData = some []) ∧
    ∀ r, findPoseForTime poseData time = some r →
      ∃ l l₁ l₂, poseData = some l ∧ l = l₁ ++ r :: l₂ ∧
        (∀ p ∈ l, |r.t - time| ≤ |p.t - time|) ∧
        ∀ p ∈ l₁, |r.t - time| < |p.t - time| := by
  match poseData with
  | none => exact ⟨by simp [findPoseForTime], by simp [findPoseForTime]⟩
  | some [] => exact ⟨by simp [findPoseForTime], by simp [findPoseForTime]⟩
  | some (p0 :: rest) =>
      constructor
      · simp [findPoseForTime]
      · intro r hr
        obtain ⟨res, hres, hcase⟩ := closer_foldl time (p0 :: rest) p0
        have hr' : res = r := by
          have : findPoseForTime (some (p0 :: rest)) time = some res := by
            simp [findPoseForTime, hres]
          rw [this] at hr
          exact Option.some.inj hr
        subst hr'
        refine ⟨p0 :: rest, ?_⟩
        rcases hcase with ⟨rfl, hmin⟩ | ⟨l₁, l₂, hsplit, _, hmin, hstrict⟩
        · exact ⟨[], rest, rfl, by simp, hmin, by simp⟩
        · exact ⟨l₁, l₂, rfl, hsplit, hmin, hstrict⟩

/-- Concrete frames used to instantiate findPoseForTime_spec. -/
def frameA : Frame := ⟨0, true, []⟩

/-- Second concrete frame, with timestamp 1. -/
def frameB : Frame := ⟨1, true, []⟩

/-- Witness for C1: on the timeline [frameA, frameB] and query time 1 the
lookup returns frameB, whose time difference is at most frameA's. -/
theorem findPoseForTime_spec_witness :
    |frameB.t - (1 : ℚ)| ≤ |frameA.t - (1 : ℚ)| := by
  obtain ⟨l, l₁, l₂, hl, _, hmin, _⟩ :=
    (findPoseForTime_spec (some [frameA, frameB]) 1).2 frameB (by
      simp [findPoseForTime, closer, frameA, frameB])
  have hl' : l = [frameA, frameB] := (Option.some.inj hl).symm
  exact hmin frameA (by rw [hl']; simp)

/-- C2: the distance-to-accuracy map of calculateJointAccuracyScores is
monotonically non-increasing on distances d ≥ 0, attains its cap 100 at
d = 0, never exceeds 100 on d ≥ 0, is never negative, and is exactly 0 for
every distance d ≥ 1/10. -/
theorem accuracyOfDistance_spec :
    (∀ d1 d2 : ℝ, 0 ≤ d1 → d1 ≤ d2 → accuracyOfDistance d2 ≤ accuracyOfDistance d1) ∧
    accuracyOfDistance 0 = 100 ∧
    (∀ d : ℝ, 0 ≤ d → accuracyOfDistance d ≤ 100) ∧
    (∀ d : ℝ, 0 ≤ accuracyOfDistance d) ∧
    ∀ d : ℝ, 1 / 10 ≤ d → accuracyOfDistance d = 0 := by
  refine ⟨?_, ?_, ?_, ?_, ?_⟩
  · intro d1 d2 _ h12
    apply max_le_max le_rfl
    nlinarith
  · norm_num [accuracyOfDistance]
  · intro d hd
    apply max_le (by norm_num)
    nlinarith
  · intro d
    exact le_max_left 0 _
  · intro d hd
    apply max_eq_left
    nlinarith

/-- Witness for C2: the map is applied at the concrete distances 0, 1 and
1/4, showing a concrete non-increase and a concrete zero value. -/
theorem accuracyOfDistance_spec_witness :
    accuracyOfDistance 1 ≤ accuracyOfDistance 0 ∧ accuracyOfDistance (1 / 4) = 0 :=
  ⟨accuracyOfDistance_spec.1 0 1 (by norm_num) (by norm_num),
   accuracyOfDistance_spec.2.2.2.2 (1 / 4) (by norm_num)⟩

/-! ### calculatePoseDifferences and calculateJointAccuracyScores
(src/unnamed/part_001, PoseDiffVisualizer component, lines 176-236) -/

/-- Severity label attached to a pose difference entry. -/
inductive Severity where
  | low
  | medium
  | high
deriving DecidableEq

/-- Status label attached to a joint accuracy score. -/
inductive Status where
  | excellent
  | good
  | needsWork
deriving DecidableEq

/-- A pose difference entry as pushed by calculatePoseDifferences. The
source stores distance = Math.sqrt(dx^2 + dy^2); here the radicand distSq
is stored exactly and the distance itself is entryDistance below. The
source's severity thresholds distance > 0.1 and distance > 0.05 are encoded
on the squares (distSq > 1/100, distSq > 1/400), which is equivalent since
the square root is strictly monotone on nonnegative reals. -/
structure DiffEntry where
  jointIndex : ℕ
  distSq : ℚ
  severity : Severity
  currentPosition : ℚ × ℚ
  referencePosition : ℚ × ℚ
deriving DecidableEq

/-- The entry built for joint index i from a live landmark cp and a
reference landmark rp: the distance uses only the x and y channels. -/
def mkDiffEntry (i : ℕ) (cp rp : Landmark) : DiffEntry :=
  { jointIndex := i
    distSq := (cp.x - rp.x) ^ 2 + (cp.y - rp.y) ^ 2
    severity :=
      if (cp.x - rp.x) ^ 2 + (cp.y - rp.y) ^ 2 > 1 / 100 then Severity.high
      else if (cp.x - rp.x) ^ 2 + (cp.y - rp.y) ^ 2 > 1 / 400 then Severity.medium
      else Severity.low
    currentPosition := (cp.x, cp.y)
    referencePosition := (rp.x, rp.y) }

/-- The Euclidean distance recorded in a difference entry, as the source
computes it with Math.sqrt. -/
noncomputable def entryDistance (e : DiffEntry) : ℝ := Real.sqrt (e.distSq : ℝ)

/-- The loop of calculatePoseDifferences: i runs from 0 below
minLength = min of the two kp lengths, reading current.kp[i] and
reference.kp[i]; walking the two lists in lockstep with a running index is
the same traversal. An entry is pushed only when both visibilities
(channel [3]) are strictly above 0.5. -/
def diffAux : ℕ → List Landmark → List Landmark → List DiffEntry
  | i, cp :: cs, rp :: rs =>
      (if 1 / 2 < cp.visibility ∧ 1 / 2 < rp.visibility then [mkDiffEntry i cp rp] else [])
        ++ diffAux (i + 1) cs rs
  | _, _, _ => []

/-- calculatePoseDifferences from PoseDiffVisualizer: returns [] when
either pose (or its kp array) is absent, otherwise compares the two kp
arrays index by index up to the shorter length. -/
def calculatePoseDifferences (current reference : Option Pose) : List DiffEntry :=
  match current, reference with
  | some c, some r => diffAux 0 c.kp r.kp
  | _, _ => []

/-- The criticalJoints table of calculateJointAccuracyScores: joint names
with their fixed landmark indices. -/
def criticalJoints : List (String × ℕ) :=
  [("leftShoulder", 11), ("rightShoulder", 12),
   ("leftElbow", 13), ("rightElbow", 14),
   ("leftWrist", 15), ("rightWrist", 16),
   ("leftHip", 23), ("rightHip", 24),
   ("leftKnee", 25), ("rightKnee", 26),
   ("leftAnkle", 27), ("rightAnkle", 28)]

/-- The twelve landmark indices of the critical joints. -/
def criticalJointIndices : List ℕ := [11, 12, 13, 14, 15, 16, 23, 24, 25, 26, 27, 28]

/-- Optional-chained landmark access current?.kp?.[index]. -/
def kpAt (pose : Option Pose) (i : ℕ) : Option Landmark :=
  match pose with
  | none => none
  | some p => p.kp[i]?

/-- A joint accuracy score record. The source stores
accuracy = Math.max(0, 100 - distance * 1000), its rounding, the distance,
and a status from the thresholds accuracy > 80 and accuracy > 60. Here the
radicand distSq is stored exactly; the accuracy value is jointAccuracy
below, and the status thresholds are encoded on the squares
(distSq < 1/2500 for accuracy > 80, distSq < 1/625 for accuracy > 60),
equivalent by monotonicity of the square root. -/
structure JointScore where
  distSq : ℚ
  status : Status
deriving DecidableEq

/-- The score record built from a live landmark cp and a reference
landmark rp: again only the x and y channels enter the distance. -/
def mkJointScore (cp rp : Landmark) : JointScore :=
  { distSq := (cp.x - rp.x) ^ 2 + (cp.y - rp.y) ^ 2
    status :=
      if (cp.x - rp.x) ^ 2 + (cp.y - rp.y) ^ 2 < 1 / 2500 then Status.excellent
      else if (cp.x - rp.x) ^ 2 + (cp.y - rp.y) ^ 2 < 1 / 625 then Status.good
      else Status.needsWork }

/-- The distance recorded in a joint score. -/
noncomputable def jointDistance (s : JointScore) : ℝ := Real.sqrt (s.distSq : ℝ)

/-- The (unrounded) accuracy value of a joint score, as computed by
calculateJointAccuracyScores before Math.round. -/
noncomputable def jointAccuracy (s : JointScore) : ℝ := accuracyOfDistance (jointDistance s)

/-- calculateJointAccuracyScores from PoseDiffVisualizer: for each entry of
criticalJoints, if both poses have a landmark at that index (no visibility
test is made), record the joint's score under its name. -/
def calculateJointAccuracyScores (current reference : Option Pose) :
    List (String × JointScore) :=
  criticalJoints.filterMap (fun nj =>
    match kpAt current nj.2, kpAt reference nj.2 with
    | some cp, some rp => some (nj.1, mkJointScore cp rp)
    | _, _ => none)

/-! ### Characterization lemmas for the pose comparison functions -/

lemma mem_diffAux :
    ∀ (cs : List Landmark) (k : ℕ) (rs : List Landmark) (e : DiffEntry),
      e ∈ diffAux k cs rs ↔
        ∃ i cp rp, cs[i]? = some cp ∧ rs[i]? = some rp ∧
          1 / 2 < cp.visibility ∧ 1 / 2 < rp.visibility ∧ e = mkDiffEntry (k + i) cp rp := by
  intro cs
  induction cs with
  | nil =>
      intro k rs e
      simp [diffAux]
  | cons cp cs' ih =>
      intro k rs e
      cases rs with
      | nil => simp [diffAux]
      | cons rp rs' =>
          rw [diffAux, List.mem_append]
          constructor
          · intro h
            rcases h with h | h
            · by_cases hc : 1 / 2 < cp.visibility ∧ 1 / 2 < rp.visibility
              · rw [if_pos hc] at h
                refine ⟨0, cp, rp, by simp, by simp, hc.1, hc.2, ?_⟩
                simpa using h
              · rw [if_neg hc] at h
                simp at h
            · obtain ⟨i, cp', rp', h1, h2, h3, h4, h5⟩ := (ih (k + 1) rs' e).mp h
              refine ⟨i + 1, cp', rp', by simpa using h1, by simpa using h2, h3, h4, ?_⟩
              rw [show k + (i + 1) = k + 1 + i by omega]
              exact h5
          · rintro ⟨i, cp', rp', h1, h2, h3, h4, h5⟩
            cases i with
            | zero =>
                rw [List.getElem?_cons_zero] at h1 h2
                obtain rfl : cp = cp' := Option.some.inj h1
                obtain rfl : rp = rp' := Option.some.inj h2
                left
                rw [if_pos ⟨h3, h4⟩]
                simpa using h5
            | succ i' =>
                right
                refine (ih (k + 1) rs' e).mpr ⟨i', cp', rp', by simpa using h1, by simpa using h2, h3, h4, ?_⟩
                rw [show k + 1 + i' = k + (i' + 1) by omega]
                exact h5

lemma mem_calculatePoseDifferences (c r : Pose) (e : DiffEntry) :
    e ∈ calculatePoseDifferences (some c) (some r) ↔
      ∃ i cp rp, c.kp[i]? = some cp ∧ r.kp[i]? = some rp ∧
        1 / 2 < cp.visibility ∧ 1 / 2 < rp.visibility ∧ e = mkDiffEntry i cp rp := by
  unfold calculatePoseDifferences
  rw [mem_diffAux]
  simp only [Nat.zero_add]

lemma mem_calculateJointAccuracyScores (cur rfp : Option Pose) (p : String × JointScore) :
    p ∈ calculateJointAccuracyScores cur rfp ↔
      ∃ nj ∈ criticalJoints, ∃ cp rp, kpAt cur nj.2 = some cp ∧ kpAt rfp nj.2 = some rp ∧
        p = (nj.1, mkJointScore cp rp) := by
  unfold calculateJointAccuracyScores
  rw [List.mem_filterMap]
  constructor
  · rintro ⟨nj, hnj, hf⟩
    cases hc : kpAt cur nj.2 with
    | none => rw [hc] at hf; simp at hf
    | some cp =>
        cases hr : kpAt rfp nj.2 with
        | none => rw [hc, hr] at hf; simp at hf
        | some rp =>
            rw [hc, hr] at hf
            simp only [Option.some.injEq] at hf
            exact ⟨nj, hnj, cp, rp, hc, hr, hf.symm⟩
  · rintro ⟨nj, hnj, cp, rp, hc, hr, rfl⟩
    exact ⟨nj, hnj, by rw [hc, hr]⟩

lemma kpAt_replicate (a : Landmark) (n i : ℕ) (h : i < n) :
    kpAt (some ⟨List.replicate n a⟩) i = some a := by
  have hlen : i < (List.replicate n a).length := by simpa using h
  simp [kpAt, List.getElem?_eq_getElem hlen]

/-! ### Theorems for claims C3, C5 and C10 -/

/-- The all-zero landmark (x = y = z = 0, visibility = 0). -/
def lmZero : Landmark := ⟨0, 0, 0, 0⟩

/-- A pose whose 29 landmarks all have visibility 0. -/
def poseZeroVis : Pose := ⟨List.replicate 29 lmZero⟩

/-- Counterexample for C3: in poseZeroVis every landmark has visibility 0,
which is not above the 0.5 threshold, yet calculateJointAccuracyScores
still lets the left shoulder (and every other critical joint) contribute a
distance-based score: it never checks visibility. -/
theorem jointScores_ignore_visibility_counterexample :
    poseZeroVis.kp = List.replicate 29 lmZero ∧ lmZero.visibility = 0 ∧
    ("leftShoulder", mkJointScore lmZero lmZero) ∈
      calculateJointAccuracyScores (some poseZeroVis) (some poseZeroVis) := by
  refine ⟨rfl, rfl, ?_⟩
  refine (mem_calculateJointAccuracyScores _ _ _).mpr
    ⟨("leftShoulder", 11), by simp [criticalJoints], lmZero, lmZero, ?_, ?_, rfl⟩
  · exact kpAt_replicate lmZero 29 11 (by norm_num)
  · exact kpAt_replicate lmZero 29 11 (by norm_num)

/-- C3 (amended): in calculatePoseDifferences an index contributes exactly
when both landmarks' visibility is strictly above 0.5, and the recorded
distance is the 2D Euclidean distance over the x and y channels only; in
calculateJointAccuracyScores the same 2D distance is used, but a critical
joint contributes whenever both poses have a landmark at its index,
with no visibility requirement. -/
theorem pose_distance_formula_spec :
    (∀ (c r : Pose) (e : DiffEntry),
        e ∈ calculatePoseDifferences (some c) (some r) ↔
          ∃ i cp rp, c.kp[i]? = some cp ∧ r.kp[i]? = some rp ∧
            1 / 2 < cp.visibility ∧ 1 / 2 < rp.visibility ∧ e = mkDiffEntry i cp rp) ∧
    (∀ (i : ℕ) (cp rp : Landmark),
        entryDistance (mkDiffEntry i cp rp) =
          Real.sqrt (((cp.x - rp.x) ^ 2 + (cp.y - rp.y) ^ 2 : ℚ) : ℝ)) ∧
    (∀ (cur rfp : Option Pose) (p : String × JointScore),
        p ∈ calculateJointAccuracyScores cur rfp ↔
          ∃ nj ∈ criticalJoints, ∃ cp rp, kpAt cur nj.2 = some cp ∧ kpAt rfp nj.2 = some rp ∧
            p = (nj.1, mkJointScore cp rp)) ∧
    ∀ (cp rp : Landmark),
        jointDistance (mkJointScore cp rp) =
          Real.sqrt (((cp.x - rp.x) ^ 2 + (cp.y - rp.y) ^ 2 : ℚ) : ℝ) := by
  refine ⟨mem_calculatePoseDifferences, ?_, mem_calculateJointAccuracyScores, ?_⟩
  · intro i cp rp
    simp [entryDistance, mkDiffEntry]
  · intro cp rp
    simp [jointDistance, mkJointScore]

/-- A fully visible landmark at (1, 1). -/
def lmVisible : Landmark := ⟨1, 1, 0, 1⟩

/-- Witness for C3 (amended): on the single-landmark pose built from
lmVisible, the joint with index 0 passes the visibility threshold and its
entry is in the difference list. -/
theorem pose_distance_formula_spec_witness :
    mkDiffEntry 0 lmVisible lmVisible ∈
      calculatePoseDifferences (some ⟨[lmVisible]⟩) (some ⟨[lmVisible]⟩) :=
  (pose_distance_formula_spec.1 ⟨[lmVisible]⟩ ⟨[lmVisible]⟩ _).mpr
    ⟨0, lmVisible, lmVisible, rfl, rfl, by norm_num [lmVisible], by norm_num [lmVisible], rfl⟩

/-- C5: the scoring considers exactly the twelve landmark indices 11-16 and
23-28: the criticalJoints table maps onto exactly that index list, every
emitted score comes from an entry of that table, and the output depends
only on the landmarks at those twelve indices. -/
theorem criticalJoints_spec :
    criticalJoints.map Prod.snd = criticalJointIndices ∧
    (∀ (cur rfp : Option Pose) (p : String × JointScore),
        p ∈ calculateJointAccuracyScores cur rfp →
          ∃ i ∈ criticalJointIndices, (p.1, i) ∈ criticalJoints) ∧
    ∀ (cur rfp cur' rfp' : Option Pose),
        (∀ i ∈ criticalJointIndices, kpAt cur i = kpAt cur' i ∧ kpAt rfp i = kpAt rfp' i) →
        calculateJointAccuracyScores cur rfp = calculateJointAccuracyScores cur' rfp' := by
  have hmap : criticalJoints.map Prod.snd = criticalJointIndices := rfl
  refine ⟨hmap, ?_, ?_⟩
  · intro cur rfp p hp
    obtain ⟨nj, hnj, cp, rp, _, _, rfl⟩ := (mem_calculateJointAccuracyScores cur rfp p).mp hp
    refine ⟨nj.2, ?_, ?_⟩
    · rw [← hmap]
      exact List.mem_map_of_mem Prod.snd hnj
    · simpa using hnj
  · intro cur rfp cur' rfp' h
    unfold calculateJointAccuracyScores
    apply List.filterMap_congr
    intro nj hnj
    have hidx : nj.2 ∈ criticalJointIndices := by
      rw [← hmap]
      exact List.mem_map_of_mem Prod.snd hnj
    obtain ⟨h1, h2⟩ := h nj.2 hidx
    rw [h1, h2]

/-- A landmark used as the shared tail of the C5 witness poses. -/
def lmBase : Landmark := ⟨2, 3, 0, 1⟩

/-- Witness pose whose index-0 landmark is one value. -/
def poseHeadA : Pose := ⟨⟨5, 5, 5, 1⟩ :: List.replicate 28 lmBase⟩

/-- Witness pose identical to poseHeadA except at the non-critical index 0. -/
def poseHeadB : Pose := ⟨⟨7, 0, 2, 0⟩ :: List.replicate 28 lmBase⟩

/-- Witness for C5: two poses that differ only at the non-critical landmark
index 0 receive identical joint accuracy scores. -/
theorem criticalJoints_spec_witness :
    calculateJointAccuracyScores (some poseHeadA) (some poseHeadA) =
      calculateJointAccuracyScores (some poseHeadB) (some poseHeadB) :=
  criticalJoints_spec.2.2 _ _ _ _ (by
    intro i hi
    simp only [criticalJointIndices, List.mem_cons, List.not_mem_nil, or_false] at hi
    rcases hi with rfl | rfl | rfl | rfl | rfl | rfl | rfl | rfl | rfl | rfl | rfl | rfl <;>
      exact ⟨rfl, rfl⟩)

/-- C10: calculatePoseDifferences is total over arbitrary inputs: absent
poses give the empty list, and every emitted entry's jointIndex is strictly
below the length of both kp arrays (hence below their minimum), so the
indexed accesses of the loop are always in range. -/
theorem calculatePoseDifferences_safe :
    (∀ rfp : Option Pose, calculatePoseDifferences none rfp = []) ∧
    (∀ cur : Option Pose, calculatePoseDifferences cur none = []) ∧
    ∀ (c r : Pose) (e : DiffEntry),
      e ∈ calculatePoseDifferences (some c) (some r) →
        e.jointIndex < min c.kp.length r.kp.length := by
  refine ⟨fun rfp => rfl, fun cur => ?_, ?_⟩
  · cases cur <;> rfl
  · intro c r e he
    obtain ⟨i, cp, rp, h1, h2, _, _, rfl⟩ := (mem_calculatePoseDifferences c r e).mp he
    have hc : i < c.kp.length := (List.getElem?_eq_some.mp h1).1
    have hr : i < r.kp.length := (List.getElem?_eq_some.mp h2).1
    exact lt_min hc hr

/-- A fully visible landmark at the origin, for the C10 witness. -/
def lmOrigin : Landmark := ⟨0, 0, 0, 1⟩

/-- Witness poses of different lengths for C10. -/
def poseLong : Pose := ⟨[lmOrigin, lmOrigin, lmOrigin]⟩

/-- One-landmark pose for the C10 witness. -/
def poseShort : Pose := ⟨[lmOrigin]⟩

/-- Witness for C10: comparing a 3-landmark pose with a 1-landmark pose
emits the index-0 entry, whose jointIndex is below min 3 1 = 1. -/
theorem calculatePoseDifferences_safe_witness :
    (mkDiffEntry 0 lmOrigin lmOrigin).jointIndex <
      min poseLong.kp.length poseShort.kp.length :=
  calculatePoseDifferences_safe.2.2 poseLong poseShort _
    ((mem_calculatePoseDifferences poseLong poseShort _).mpr
      ⟨0, lmOrigin, lmOrigin, rfl, rfl, by norm_num [lmOrigin], by norm_num [lmOrigin], rfl⟩)

/-! ### The RealtimeScorer session state (src/unnamed/part_001, two versions
of the component, lines 569-729 and 730-866) -/

/-- The score-related React state of a RealtimeScorer component: totalScore
(mirrored by totalScoreRef), the currentPoints of the last response, the
displayed rounded accuracy, and frameCount. -/
structure ScorerState where
  totalScore : ℚ
  currentPoints : ℚ
  accuracy : ℤ
  frameCount : ℕ
deriving DecidableEq

/-- All score state starts at 0 (the useState(0) initializers). -/
def initialScorerState : ScorerState := ⟨0, 0, 0, 0⟩

/-- One successful scoring response processed by the first RealtimeScorer's
sendPoseForScoring: newTotalScore = totalScoreRef.current + points_earned;
frameCount is incremented; newAccuracy = newFrameCount > 0 ?
newTotalScore / newFrameCount : points_earned, displayed rounded
(Math.round, which is round-half-up, matching Mathlib's round). -/
def scoreResponse1 (s : ScorerState) (points : ℚ) : ScorerState :=
  { totalScore := s.totalScore + points
    currentPoints := points
    accuracy :=
      round (if 0 < s.frameCount + 1
        then (s.totalScore + points) / ((s.frameCount + 1 : ℕ) : ℚ) else points)
    frameCount := s.frameCount + 1 }

/-- One successful scoring response processed by the second RealtimeScorer's
sendPoseForScoring: same total update via totalScoreRef, but the accuracy
reads the pre-increment frameCount state value:
newAccuracy = frameCount > 0 ? newTotalScore / (frameCount + 1) :
points_earned. Responses are modelled sequentially: each one is applied to
the state left by the previous response. -/
def scoreResponse2 (s : ScorerState) (points : ℚ) : ScorerState :=
  { totalScore := s.totalScore + points
    currentPoints := points
    accuracy :=
      round (if 0 < s.frameCount
        then (s.totalScore + points) / ((s.frameCount : ℚ) + 1) else points)
    frameCount := s.frameCount + 1 }

/-- A session's worth of responses under the first implementation. -/
def runScorer1 (responses : List ℚ) : ScorerState :=
  responses.foldl scoreResponse1 initialScorerState

/-- A session's worth of responses under the second implementation. -/
def runScorer2 (responses : List ℚ) : ScorerState :=
  responses.foldl scoreResponse2 initialScorerState

lemma foldl_scoreResponse1 :
    ∀ (ps : List ℚ) (s : ScorerState),
      (ps.foldl scoreResponse1 s).totalScore = s.totalScore + ps.sum ∧
      (ps.foldl scoreResponse1 s).frameCount = s.frameCount + ps.length := by
  intro ps
  induction ps with
  | nil => intro s; simp
  | cons p ps ih =>
      intro s
      obtain ⟨h1, h2⟩ := ih (scoreResponse1 s p)
      constructor
      · rw [List.foldl_cons, h1, List.sum_cons]
        simp [scoreResponse1]
        ring
      · rw [List.foldl_cons, h2, List.length_cons]
        simp [scoreResponse1]
        omega

/-- C4: after any sequence of successful scoring responses in one active
session, the cumulative totalScore is exactly the sum of the points_earned
values and frameCount is exactly the number of responses. -/
theorem sendPoseForScoring_session_totals (responses : List ℚ) :
    (runScorer1 responses).totalScore = responses.sum ∧
    (runScorer1 responses).frameCount = responses.length := by
  obtain ⟨h1, h2⟩ := foldl_scoreResponse1 responses initialScorerState
  rw [runScorer1]
  rw [h1, h2]
  constructor <;> simp [initialScorerState]

lemma scoreResponse_agree :
    ∀ (ps : List ℚ) (s : ScorerState), (s.frameCount = 0 → s.totalScore = 0) →
      ps.foldl scoreResponse1 s = ps.foldl scoreResponse2 s := by
  intro ps
  induction ps with
  | nil => intro s _; rfl
  | cons p ps ih =>
      intro s hs
      have hstep : scoreResponse1 s p = scoreResponse2 s p := by
        unfold scoreResponse1 scoreResponse2
        rcases Nat.eq_zero_or_pos s.frameCount with h0 | hpos
        · rw [hs h0, h0]
          norm_num
        · rw [if_pos hpos, if_pos (Nat.succ_pos s.frameCount)]
          push_cast
          rfl
      rw [List.foldl_cons, List.foldl_cons, hstep,
        ih (scoreResponse2 s p) (fun h => absurd h (by simp [scoreResponse2]))]

/-- C9: the two RealtimeScorer implementations are observationally
equivalent on score state: for every finite sequence of scoring responses
they produce the same cumulative totalScore and the same displayed rounded
accuracy (applying this to each prefix of a response sequence gives the
equality after every response). -/
theorem realtimeScorer_versions_equiv (responses : List ℚ) :
    (runScorer1 responses).totalScore = (runScorer2 responses).totalScore ∧
    (runScorer1 responses).accuracy = (runScorer2 responses).accuracy := by
  have h : runScorer1 responses = runScorer2 responses :=
    scoreResponse_agree responses initialScorerState (fun _ => rfl)
  rw [h]
  exact ⟨rfl, rfl⟩

/-! ### Session lifecycle of the first RealtimeScorer (useEffect on
isGameStarted, lines 654-689): stopping the game clears the scoring
interval (so response events no longer have any effect) and resets all
score state to 0. -/

/-- Events affecting a RealtimeScorer session: a successful scoring
response (only processed while the game is started), and the game-start /
game-stop transitions of the isGameStarted prop. -/
inductive SessionEvent where
  | response (points : ℚ)
  | gameStarted
  | gameStopped
deriving DecidableEq

/-- The component's session state: whether the scoring interval is running,
plus the score state. -/
structure SessionState where
  running : Bool
  score : ScorerState
deriving DecidableEq

/-- The session transition function: sendPoseForScoring early-returns when
the game is not started (and the interval is cleared anyway), game start
arms the interval, and game stop clears the interval and resets totalScore,
currentPoints, accuracy and frameCount to 0. -/
def sessionStep (s : SessionState) (e : SessionEvent) : SessionState :=
  match e with
  | SessionEvent.response p =>
      if s.running then { s with score := scoreResponse1 s.score p } else s
  | SessionEvent.gameStarted => { s with running := true }
  | SessionEvent.gameStopped => { running := false, score := initialScorerState }

lemma foldl_sessionStep_stopped :
    ∀ (evs : List SessionEvent), SessionEvent.gameStarted ∉ evs →
      evs.foldl sessionStep ⟨false, initialScorerState⟩ = ⟨false, initialScorerState⟩ := by
  intro evs
  induction evs with
  | nil => intro _; rfl
  | cons e evs ih =>
      intro h
      have he : e ≠ SessionEvent.gameStarted := fun hc => h (hc ▸ List.mem_cons_self e evs)
      have hstep : sessionStep ⟨false, initialScorerState⟩ e = ⟨false, initialScorerState⟩ := by
        cases e with
        | response p => rfl
        | gameStarted => exact absurd rfl he
        | gameStopped => rfl
      rw [List.foldl_cons, hstep, ih (fun hc => h (List.mem_cons_of_mem e hc))]

/-- C7: ending a session (gameStopped) resets all score state to 0, and as
long as no new session starts, any further events — in particular response
events, which are no longer processed since the interval is stopped —
leave the state at 0 with the interval off. -/
theorem session_end_resets_and_stays_zero (s : SessionState) (evs : List SessionEvent)
    (h : SessionEvent.gameStarted ∉ evs) :
    (sessionStep s SessionEvent.gameStopped).score = initialScorerState ∧
    (evs.foldl sessionStep (sessionStep s SessionEvent.gameStopped)).score =
      initialScorerState ∧
    (evs.foldl sessionStep (sessionStep s SessionEvent.gameStopped)).running = false := by
  have hstop : sessionStep s SessionEvent.gameStopped = ⟨false, initialScorerState⟩ := rfl
  rw [hstop, foldl_sessionStep_stopped evs h]
  exact ⟨rfl, rfl, rfl⟩

/-- Witness for C7: a concrete running session with nonzero score receives
a stop followed by two response events; the state stays reset. -/
theorem session_end_resets_and_stays_zero_witness :
    (sessionStep ⟨true, ⟨55, 10, 7, 9⟩⟩ SessionEvent.gameStopped).score =
      initialScorerState ∧
    (([SessionEvent.response 5, SessionEvent.response 3].foldl sessionStep
        (sessionStep ⟨true, ⟨55, 10, 7, 9⟩⟩ SessionEvent.gameStopped)).score =
      initialScorerState) ∧
    (([SessionEvent.response 5, SessionEvent.response 3].foldl sessionStep
        (sessionStep ⟨true, ⟨55, 10, 7, 9⟩⟩ SessionEvent.gameStopped)).running = false) := by
  have h := session_end_resets_and_stays_zero ⟨true, ⟨55, 10, 7, 9⟩⟩
    [SessionEvent.response 5, SessionEvent.response 3] (by simp)
  exact ⟨h.1, h.2.1, h.2.2⟩

/-! ### The live similarity scorer (backend of the /api/compare-pose call) -/

/-- Modelled from the spec: the 2D squared distance between the landmarks
of the live and reference poses at index i (0 when either is missing);
the backend live similarity scorer behind the /api/compare-pose endpoint
is not among the frontend sources. -/
def distSqAt (live rfp : Pose) (i : ℕ) : ℚ :=
  match live.kp[i]?, rfp.kp[i]? with
  | some lp, some rp => (lp.x - rp.x) ^ 2 + (lp.y - rp.y) ^ 2
  | _, _ => 0

/-- Modelled from the spec: the key joints that contribute to a live
scoring call — the critical joint indices at which both the live and the
reference landmark exist and have visibility strictly above the fixed
threshold 0.5. The backend scorer itself is not among the sources. -/
def scoringJoints (live rfp : Pose) : List ℕ :=
  criticalJointIndices.filter (fun i =>
    match live.kp[i]?, rfp.kp[i]? with
    | some lp, some rp => decide (1 / 2 < lp.visibility ∧ 1 / 2 < rp.visibility)
    | _, _ => false)

/-- Modelled from the spec: the points awarded by one live scoring call —
the average of the contributing joints' 2D Euclidean distances mapped
through the bounded decreasing distance-to-points function; when no joint
passes the visibility threshold the call awards 0 points (and no error).
The backend scorer itself is not among the sources. -/
noncomputable def liveScorerPoints (live rfp : Pose) : ℝ :=
  if scoringJoints live rfp = [] then 0
  else
    accuracyOfDistance
      ((((scoringJoints live rfp).map
          (fun i => Real.sqrt ((distSqAt live rfp i : ℚ) : ℝ))).sum) /
        ((scoringJoints live rfp).length : ℝ))

/-! ### Theorems for claim C6 -/

/-- A pose whose landmark 0 (the nose, not a key joint) is fully visible
while all key joints have visibility 0. -/
def poseNoseVisible : Pose := ⟨lmVisible :: List.replicate 28 lmZero⟩

/-- Counterexample for C6: in poseNoseVisible every key joint (indices
11-28 all hold lmZero, visibility 0) is at or below the 0.5 threshold, yet
calculatePoseDifferences of the pose against itself is not the empty list:
the fully visible non-key landmark 0 still contributes an entry. -/
theorem nonKeyJoint_entry_counterexample :
    poseNoseVisible.kp = lmVisible :: List.replicate 28 lmZero ∧
    lmZero.visibility = 0 ∧ (0 : ℕ) ∉ criticalJointIndices ∧
    kpAt (some poseNoseVisible) 11 = some lmZero ∧
    calculatePoseDifferences (some poseNoseVisible) (some poseNoseVisible) ≠ [] := by
  refine ⟨rfl, rfl, by decide, rfl, ?_⟩
  intro hempty
  have hmem : mkDiffEntry 0 lmVisible lmVisible ∈
      calculatePoseDifferences (some poseNoseVisible) (some poseNoseVisible) :=
    (mem_calculatePoseDifferences _ _ _).mpr
      ⟨0, lmVisible, lmVisible, rfl, rfl, by norm_num [lmVisible], by norm_num [lmVisible], rfl⟩
  rw [hempty] at hmem
  simp at hmem

/-- C6 (amended): when every key joint of the live pose (or of the
reference pose) has visibility at or below 0.5, the key joints contribute
nothing: no key-joint index appears in the pose difference list, no joint
passes the scorer's threshold, and the (spec-modelled) live scoring call
awards 0 points without any error — though difference entries for fully
visible non-key landmarks may still be present. -/
theorem lowVisibility_zero_contribution (live rfp : Pose)
    (h : (∀ i ∈ criticalJointIndices, ∀ lp, kpAt (some live) i = some lp →
            lp.visibility ≤ 1 / 2) ∨
         (∀ i ∈ criticalJointIndices, ∀ rp, kpAt (some rfp) i = some rp →
            rp.visibility ≤ 1 / 2)) :
    (∀ e ∈ calculatePoseDifferences (some live) (some rfp),
        e.jointIndex ∉ criticalJointIndices) ∧
    scoringJoints live rfp = [] ∧
    liveScorerPoints live rfp = 0 := by
  have hjoints : scoringJoints live rfp = [] := by
    rw [scoringJoints, List.filter_eq_nil_iff]
    intro i hi
    cases hc : live.kp[i]? with
    | none => simp [hc]
    | some lp =>
        cases hr : rfp.kp[i]? with
        | none => simp [hc, hr]
        | some rp =>
            simp only [hc, hr, decide_eq_true_eq, Bool.not_eq_true]
            rintro ⟨hlp, hrp⟩
            rcases h with h | h
            · exact absurd (h i hi lp hc) (not_le.mpr hlp)
            · exact absurd (h i hi rp hr) (not_le.mpr hrp)
  refine ⟨?_, hjoints, ?_⟩
  · intro e he hidx
    obtain ⟨i, cp, rp, h1, h2, h3, h4, rfl⟩ :=
      (mem_calculatePoseDifferences live rfp e).mp he
    have hi : i ∈ criticalJointIndices := by simpa [mkDiffEntry] using hidx
    rcases h with h | h
    · exact absurd (h i hi cp h1) (not_le.mpr h3)
    · exact absurd (h i hi rp h2) (not_le.mpr h4)
  · rw [liveScorerPoints, if_pos hjoints]

/-- Witness for C6 (amended): the all-zero-visibility pose compared against
itself passes no joint through the threshold and is awarded 0 points. -/
theorem lowVisibility_zero_contribution_witness :
    scoringJoints poseZeroVis poseZeroVis = [] ∧
    liveScorerPoints poseZeroVis poseZeroVis = 0 := by
  have h := lowVisibility_zero_contribution poseZeroVis poseZeroVis
    (Or.inl (by
      intro i hi lp hlp
      simp only [criticalJointIndices, List.mem_cons, List.not_mem_nil, or_false] at hi
      rcases hi with rfl | rfl | rfl | rfl | rfl | rfl | rfl | rfl | rfl | rfl | rfl | rfl <;>
      · injection hlp with hl
        rw [← hl]
        show (0 : ℚ) ≤ 1 / 2
        norm_num))
  exact ⟨h.2.1, h.2.2⟩

/-! ### The Timeline Aligner and Comparator (spec section 4.5). The offline
comparator is not among the frontend sources; it is modelled from the spec. -/

/-- Modelled from the spec: an Angle Record — a timestamp with the four
joint angles elbow_L, elbow_R, knee_L, knee_R. -/
structure AngleRec where
  t : ℚ
  elbowL : ℚ
  elbowR : ℚ
  kneeL : ℚ
  kneeR : ℚ
deriving DecidableEq

/-- A 4-dimensional angle vector. -/
abbrev Vec4 : Type := ℚ × ℚ × ℚ × ℚ

/-- The angle vector of a record. -/
def recVec (r : AngleRec) : Vec4 := (r.elbowL, r.elbowR, r.kneeL, r.kneeR)

/-- Dot product of two angle vectors. -/
def dotQ (a b : Vec4) : ℚ :=
  a.1 * b.1 + a.2.1 * b.2.1 + a.2.2.1 * b.2.2.1 + a.2.2.2 * b.2.2.2

/-- Componentwise linear interpolation a + w (b - a). -/
def lerpVec (a b : Vec4) (w : ℚ) : Vec4 :=
  (a.1 + w * (b.1 - a.1), a.2.1 + w * (b.2.1 - a.2.1),
   a.2.2.1 + w * (b.2.2.1 - a.2.2.1), a.2.2.2 + w * (b.2.2.2 - a.2.2.2))

/-- Modelled from the spec: the latest record strictly before τ. -/
def bestBelow (tl : List AngleRec) (τ : ℚ) : Option AngleRec :=
  (tl.filter (fun r => decide (r.t < τ))).foldl
    (fun acc r =>
      match acc with
      | none => some r
      | some a => if a.t < r.t then some r else some a) none

/-- Modelled from the spec: the earliest record strictly after τ. -/
def bestAbove (tl : List AngleRec) (τ : ℚ) : Option AngleRec :=
  (tl.filter (fun r => decide (τ < r.t))).foldl
    (fun acc r =>
      match acc with
      | none => some r
      | some a => if r.t < a.t then some r else some a) none

/-- Modelled from the spec: resampling of a timeline at a target timestamp
(spec 4.5 step 3): an exact timestamp hit is used directly, otherwise the
two bracketing records are linearly interpolated; none when no bracket
exists. -/
def resampleAt (tl : List AngleRec) (τ : ℚ) : Option Vec4 :=
  match tl.find? (fun r => decide (r.t = τ)) with
  | some r => some (recVec r)
  | none =>
      match bestBelow tl τ, bestAbove tl τ with
      | some lo, some hi =>
          some (lerpVec (recVec lo) (recVec hi) ((τ - lo.t) / (hi.t - lo.t)))
      | _, _ => none

/-- Modelled from the spec: N evenly spaced timestamps across an inclusive
window (spec 4.5 step 2). -/
def sampleTimes (tStart tEnd : ℚ) (N : ℕ) : List ℚ :=
  if N ≤ 1 then [tStart]
  else (List.range N).map (fun i => tStart + (tEnd - tStart) * i / ((N : ℚ) - 1))

/-- The earliest timestamp of a timeline. -/
def minTime? : List AngleRec → Option ℚ
  | [] => none
  | r :: rs => some (rs.foldl (fun m x => min m x.t) r.t)

/-- The latest timestamp of a timeline. -/
def maxTime? : List AngleRec → Option ℚ
  | [] => none
  | r :: rs => some (rs.foldl (fun m x => max m x.t) r.t)

/-- Modelled from the spec: the comparison window
[max of the min timestamps, min of the max timestamps] (spec 4.5 step 1);
none when a timeline is empty or the window is degenerate (no overlap). -/
def overlapWindow (refTl usrTl : List AngleRec) : Option (ℚ × ℚ) :=
  match minTime? refTl, maxTime? refTl, minTime? usrTl, maxTime? usrTl with
  | some a, some b, some c, some d =>
      if max a c < min b d then some (max a c, min b d) else none
  | _, _, _, _ => none

/-- Modelled from the spec: the comparison pair produced at one target
timestamp: both timelines resampled there, kept only when both vectors are
defined and of nonzero magnitude (spec 4.5 step 4 excludes zero-magnitude
samples). -/
def samplePair (refTl usrTl : List AngleRec) (τ : ℚ) : Option (ℚ × Vec4 × Vec4) :=
  match resampleAt refTl τ, resampleAt usrTl τ with
  | some a, some b => if dotQ a a ≠ 0 ∧ dotQ b b ≠ 0 then some (τ, a, b) else none
  | _, _ => none

/-- The valid comparison samples over a given window. -/
def windowSamples (w : ℚ × ℚ) (refTl usrTl : List AngleRec) (N : ℕ) :
    List (ℚ × Vec4 × Vec4) :=
  (sampleTimes w.1 w.2 N).filterMap (samplePair refTl usrTl)

/-- Modelled from the spec: all valid comparison samples of two timelines. -/
def comparisonSamples (refTl usrTl : List AngleRec) (N : ℕ) :
    List (ℚ × Vec4 × Vec4) :=
  match overlapWindow refTl usrTl with
  | none => []
  | some w => windowSamples w refTl usrTl N

/-- Modelled from the spec: cosine similarity of two angle vectors, clamped
to [-1, 1] (spec 4.5 step 4). -/
noncomputable def cosSim (a b : Vec4) : ℝ :=
  max (-1) (min 1 (((dotQ a b : ℚ) : ℝ) /
    (Real.sqrt ((dotQ a a : ℚ) : ℝ) * Real.sqrt ((dotQ b b : ℚ) : ℝ))))

/-- Modelled from the spec: the per-sample similarity score
(cos_sim + 1) / 2 in [0, 1]. -/
noncomputable def simScore (a b : Vec4) : ℝ := (cosSim a b + 1) / 2

/-- Minimum of a list of reals (0 for the empty list, which the comparator
never aggregates). -/
noncomputable def listMin : List ℝ → ℝ
  | [] => 0
  | x :: xs => xs.foldl min x

/-- Maximum of a list of reals. -/
noncomputable def listMax : List ℝ → ℝ
  | [] => 0
  | x :: xs => xs.foldl max x

/-- Modelled from the spec: the aggregate comparison report — mean, min and
max similarity plus the per-sample series (spec 4.5 step 5). -/
structure ComparisonReport where
  mean : ℝ
  minSim : ℝ
  maxSim : ℝ
  series : List (ℚ × ℝ)

/-- Modelled from the spec: the Timeline Aligner and Comparator — fails
with "no overlap" when the window is empty, with "insufficient valid
samples" when fewer than 2 samples survive exclusion, and otherwise
aggregates the per-sample similarity scores. -/
noncomputable def compareTimelines (refTl usrTl : List AngleRec) (N : ℕ) :
    Except String ComparisonReport :=
  if overlapWindow refTl usrTl = none then Except.error "no overlap"
  else if (comparisonSamples refTl usrTl N).length < 2 then
    Except.error "insufficient valid samples"
  else
    Except.ok
      { mean := ((comparisonSamples refTl usrTl N).map
            (fun s => simScore s.2.1 s.2.2)).sum /
          ((comparisonSamples refTl usrTl N).length : ℝ)
        minSim := listMin ((comparisonSamples refTl usrTl N).map
          (fun s => simScore s.2.1 s.2.2))
        maxSim := listMax ((comparisonSamples refTl usrTl N).map
          (fun s => simScore s.2.1 s.2.2))
        series := (comparisonSamples refTl usrTl N).map
          (fun s => (s.1, simScore s.2.1 s.2.2)) }

lemma dotQ_self_nonneg (a : Vec4) : 0 ≤ dotQ a a := by
  unfold dotQ
  nlinarith [mul_self_nonneg a.1, mul_self_nonneg a.2.1,
    mul_self_nonneg a.2.2.1, mul_self_nonneg a.2.2.2]

lemma simScore_self (a : Vec4) (h : dotQ a a ≠ 0) : simScore a a = 1 := by
  have hpos : (0 : ℝ) < ((dotQ a a : ℚ) : ℝ) := by
    exact_mod_cast lt_of_le_of_ne (dotQ_self_nonneg a) (Ne.symm h)
  have hsqrt : Real.sqrt ((dotQ a a : ℚ) : ℝ) * Real.sqrt ((dotQ a a : ℚ) : ℝ) =
      ((dotQ a a : ℚ) : ℝ) := Real.mul_self_sqrt hpos.le
  have hcos : cosSim a a = 1 := by
    rw [cosSim, hsqrt, div_self hpos.ne']
    norm_num
  rw [simScore, hcos]
  norm_num

lemma samplePair_self (tl : List AngleRec) (τ : ℚ) (s : ℚ × Vec4 × Vec4)
    (h : samplePair tl tl τ = some s) : s.2.1 = s.2.2 ∧ dotQ s.2.1 s.2.1 ≠ 0 := by
  cases hres : resampleAt tl τ with
  | none =>
      simp only [samplePair, hres] at h
      exact absurd h (by simp)
  | some a =>
      simp only [samplePair, hres] at h
      by_cases hnz : dotQ a a ≠ 0 ∧ dotQ a a ≠ 0
      · rw [if_pos hnz] at h
        obtain rfl : (τ, a, a) = s := Option.some.inj h
        exact ⟨rfl, hnz.1⟩
      · rw [if_neg hnz] at h
        exact absurd h (by simp)

lemma sum_eq_length_of_all_one :
    ∀ l : List ℝ, (∀ x ∈ l, x = 1) → l.sum = l.length := by
  intro l
  induction l with
  | nil => intro _; simp
  | cons x xs ih =>
      intro h
      rw [List.sum_cons, h x (List.mem_cons_self x xs),
        ih (fun y hy => h y (List.mem_cons_of_mem x hy)), List.length_cons]
      push_cast
      ring

lemma foldl_min_const :
    ∀ (xs : List ℝ) (x : ℝ), (∀ y ∈ xs, y = 1) → x = 1 → xs.foldl min x = 1 := by
  intro xs
  induction xs with
  | nil => intro x _ hx; simpa using hx
  | cons y ys ih =>
      intro x h hx
      rw [List.foldl_cons, h y (List.mem_cons_self y ys), hx]
      exact ih (min 1 1) (fun z hz => h z (List.mem_cons_of_mem y hz)) (min_self 1)

lemma foldl_max_const :
    ∀ (xs : List ℝ) (x : ℝ), (∀ y ∈ xs, y = 1) → x = 1 → xs.foldl max x = 1 := by
  intro xs
  induction xs with
  | nil => intro x _ hx; simpa using hx
  | cons y ys ih =>
      intro x h hx
      rw [List.foldl_cons, h y (List.mem_cons_self y ys), hx]
      exact ih (max 1 1) (fun z hz => h z (List.mem_cons_of_mem y hz)) (max_self 1)

lemma listMin_all_one (l : List ℝ) (hne : l ≠ []) (h : ∀ x ∈ l, x = 1) :
    listMin l = 1 := by
  cases l with
  | nil => exact absurd rfl hne
  | cons x xs =>
      rw [listMin]
      exact foldl_min_const xs x (fun y hy => h y (List.mem_cons_of_mem x hy))
        (h x (List.mem_cons_self x xs))

lemma listMax_all_one (l : List ℝ) (hne : l ≠ []) (h : ∀ x ∈ l, x = 1) :
    listMax l = 1 := by
  cases l with
  | nil => exact absurd rfl hne
  | cons x xs =>
      rw [listMax]
      exact foldl_max_const xs x (fun y hy => h y (List.mem_cons_of_mem x hy))
        (h x (List.mem_cons_self x xs))

/-- C8: comparing a timeline against itself, whenever the comparison
succeeds, yields per-sample similarity exactly 1 at every compared sample
timestamp, and the aggregate mean, minimum and maximum similarity all
equal 1. -/
theorem compareTimelines_self_spec (tl : List AngleRec) (N : ℕ)
    (h1 : overlapWindow tl tl ≠ none)
    (h2 : ¬(comparisonSamples tl tl N).length < 2) :
    ∃ rep, compareTimelines tl tl N = Except.ok rep ∧
      (∀ p ∈ rep.series, p.2 = 1) ∧ rep.mean = 1 ∧ rep.minSim = 1 ∧ rep.maxSim = 1 := by
  have hall : ∀ s ∈ comparisonSamples tl tl N, simScore s.2.1 s.2.2 = 1 := by
    intro s hs
    obtain ⟨w, hw⟩ := Option.ne_none_iff_exists'.mp h1
    have hs' : s ∈ windowSamples w tl tl N := by
      have hsamp : comparisonSamples tl tl N = windowSamples w tl tl N := by
        unfold comparisonSamples
        rw [hw]
      rwa [hsamp] at hs
    obtain ⟨τ, _, hf⟩ := List.mem_filterMap.mp hs'
    obtain ⟨heq, hnz⟩ := samplePair_self tl τ s hf
    rw [← heq]
    exact simScore_self s.2.1 (heq ▸ hnz)
  have hlen : 2 ≤ (comparisonSamples tl tl N).length := not_lt.mp h2
  have hscores : ∀ x ∈ (comparisonSamples tl tl N).map (fun s => simScore s.2.1 s.2.2),
      x = 1 := by
    intro x hx
    obtain ⟨s, hs, rfl⟩ := List.mem_map.mp hx
    exact hall s hs
  have hne : (comparisonSamples tl tl N).map (fun s => simScore s.2.1 s.2.2) ≠ [] := by
    intro hnil
    have hl0 : comparisonSamples tl tl N = [] := by
      simpa using congrArg List.length hnil
    rw [hl0] at hlen
    simp at hlen
  have hlenne : ((comparisonSamples tl tl N).length : ℝ) ≠ 0 :=
    Nat.cast_ne_zero.mpr (by omega)
  unfold compareTimelines
  rw [if_neg (by simpa using h1), if_neg h2]
  refine ⟨_, rfl, ?_, ?_, ?_, ?_⟩
  · intro p hp
    obtain ⟨s, hs, rfl⟩ := List.mem_map.mp hp
    exact hall s hs
  · show ((comparisonSamples tl tl N).map (fun s => simScore s.2.1 s.2.2)).sum /
        ((comparisonSamples tl tl N).length : ℝ) = 1
    rw [sum_eq_length_of_all_one _ hscores]
    rw [List.length_map]
    exact div_self hlenne
  · exact listMin_all_one _ hne hscores
  · exact listMax_all_one _ hne hscores

/-- A concrete angle record at time 0 used for the C8 witness. -/
def angleRecA : AngleRec := ⟨0, 1, 1, 1, 1⟩

/-- A concrete angle record at time 1 used for the C8 witness. -/
def angleRecB : AngleRec := ⟨1, 2, 2, 2, 2⟩

/-- A two-record timeline used for the C8 witness. -/
def timelineAB : List AngleRec := [angleRecA, angleRecB]

/-- Witness for C8: comparing the concrete two-record timeline against
itself with N = 2 samples succeeds and reports mean, minimum and maximum
similarity all equal to 1. -/
theorem compareTimelines_self_spec_witness :
    (compareTimelines timelineAB timelineAB 2).map ComparisonReport.mean = Except.ok 1 ∧
    (compareTimelines timelineAB timelineAB 2).map ComparisonReport.minSim = Except.ok 1 ∧
    (compareTimelines timelineAB timelineAB 2).map ComparisonReport.maxSim = Except.ok 1 := by
  have h0 : samplePair timelineAB timelineAB 0 = some (0, (1, 1, 1, 1), (1, 1, 1, 1)) := by
    norm_num [samplePair, resampleAt, recVec, dotQ, timelineAB, angleRecA, angleRecB,
      List.find?]
  have h1 : samplePair timelineAB timelineAB 1 = some (1, (2, 2, 2, 2), (2, 2, 2, 2)) := by
    norm_num [samplePair, resampleAt, recVec, dotQ, timelineAB, angleRecA, angleRecB,
      List.find?]
  have hwin : overlapWindow timelineAB timelineAB = some (0, 1) := by
    norm_num [overlapWindow, minTime?, maxTime?, timelineAB, angleRecA, angleRecB]
  have hst : sampleTimes (0 : ℚ) 1 2 = [0, 1] := by
    norm_num [sampleTimes, List.range_succ]
  have hsamples : comparisonSamples timelineAB timelineAB 2 =
      [(0, (1, 1, 1, 1), (1, 1, 1, 1)), (1, (2, 2, 2, 2), (2, 2, 2, 2))] := by
    have hcs : comparisonSamples timelineAB timelineAB 2 =
        windowSamples (0, 1) timelineAB timelineAB 2 := by
      unfold comparisonSamples
      rw [hwin]
    rw [hcs]
    unfold windowSamples
    simp only [hst]
    simp only [List.filterMap_cons, List.filterMap_nil, h0, h1]
  obtain ⟨rep, hok, _, hmean, hminv, hmaxv⟩ :=
    compareTimelines_self_spec timelineAB 2 (by rw [hwin]; simp) (by rw [hsamples]; norm_num)
  rw [hok]
  simp [Except.map, hmean, hminv, hmaxv]
